import Mathlib

/-
  Verification of the GEX aggregation pipeline of clebritas/gex-dashboard.

  Shallow embedding conventions:
  - Python floats are modelled as exact rationals where only field arithmetic,
    grouping and sorting occur; the Black-Scholes gamma estimator, which uses
    log / sqrt / exp, is modelled over the reals.
  - A missing value (Python None, or a pandas NaN that arithmetic and the
    skipna-summation treat as absent) is modelled as Option.none.
  - A pandas DataFrame is a list of row structures; groupby-sum is a filter
    followed by a list sum; sort_values is a sort by the stated key.
  - The paginated feed is a function from page index to the fetch outcome of
    that page; a raised Python exception is Except.error.
-/

namespace app

/-- Row of the DataFrame built by fetch_chain_0dte_snapshot in app.py:
strike, type, gamma and open_interest are all present and numeric there
(records with a missing field were skipped by the fetch loop). -/
structure InRow where
  strike : ℚ
  type : String
  gamma : ℚ
  open_interest : ℚ
deriving DecidableEq, Repr

/-- Output row of app.py compute_abs_gex_by_strike. -/
structure ProfileRow where
  strike : ℚ
  CallGEX : ℚ
  PutGEX : ℚ
  AbsGEX : ℚ
deriving DecidableEq, Repr

/-- The per-row exposure contribution, line 175 of app.py: gex = gamma * open_interest. -/
def gexOf (r : InRow) : ℚ := r.gamma * r.open_interest

/-- The call-side sub-table, line 177 of app.py. -/
def callsOf (df : List InRow) : List InRow := df.filter (fun r => r.type == "call")

/-- The put-side sub-table, line 178 of app.py. -/
def putsOf (df : List InRow) : List InRow := df.filter (fun r => r.type == "put")

/-- groupby("strike")["gex"].sum() evaluated at one group key. -/
def groupSum (rows : List InRow) (s : ℚ) : ℚ :=
  ((rows.filter (fun r => r.strike == s)).map gexOf).sum

/-- The group keys of the outer concat of the call and put groupby results,
lines 177-180 of app.py: the union of the strikes seen among call rows and
among put rows (a strike with no call row gets CallGEX = 0 via fillna, and
symmetrically). -/
def outStrikes (df : List InRow) : List ℚ :=
  ((callsOf df).map InRow.strike ++ (putsOf df).map InRow.strike).dedup

/-- app.py compute_abs_gex_by_strike, lines 165-183: empty input short-circuits
to an empty frame; otherwise group by strike on each side, outer-join with
fillna(0), set AbsGEX = |CallGEX| + |PutGEX| and sort ascending by strike. -/
def compute_abs_gex_by_strike (df : List InRow) : List ProfileRow :=
  if df.isEmpty then []
  else
    ((outStrikes df).insertionSort (· ≤ ·)).map (fun s =>
      let c := groupSum (callsOf df) s
      let p := groupSum (putsOf df) s
      { strike := s, CallGEX := c, PutGEX := p, AbsGEX := |c| + |p| })

/-- Descending-AbsGEX comparison used by sort_values("AbsGEX", ascending=False). -/
def absDescLE (a b : ProfileRow) : Prop := b.AbsGEX ≤ a.AbsGEX

/-- Ascending-strike comparison used by sort_values("strike"). -/
def strikeLE (a b : ProfileRow) : Prop := a.strike ≤ b.strike

instance : DecidableRel absDescLE :=
  fun a b => inferInstanceAs (Decidable (b.AbsGEX ≤ a.AbsGEX))

instance : DecidableRel strikeLE :=
  fun a b => inferInstanceAs (Decidable (a.strike ≤ b.strike))

instance : IsTotal ProfileRow absDescLE :=
  ⟨fun a b => (le_total b.AbsGEX a.AbsGEX).imp id id⟩

instance : IsTrans ProfileRow absDescLE :=
  ⟨fun _ _ _ hab hbc => le_trans hbc hab⟩

instance : IsTotal ProfileRow strikeLE :=
  ⟨fun a b => (le_total a.strike b.strike).imp id id⟩

instance : IsTrans ProfileRow strikeLE :=
  ⟨fun _ _ _ hab hbc => le_trans hab hbc⟩

/-- Lines 292-293 of app.py: sort the profile by AbsGEX descending, keep the
first n rows, then re-sort the selected subset ascending by strike. -/
def topSelect (df : List ProfileRow) (n : ℕ) : List ProfileRow :=
  ((df.insertionSort absDescLE).take n).insertionSort strikeLE

/-- Raw per-contract entry of one page of the Polygon options snapshot, with
each field optional exactly as app.py treats it (dict .get lookups). -/
structure RawItem where
  expiration_date : Option String
  strike_price : Option ℚ
  contract_type : Option String
  gamma : Option ℚ
  open_interest : Option ℚ
deriving DecidableEq, Repr

/-- Body of the per-item loop of fetch_chain_0dte_snapshot, lines 128-153 of
app.py: skip the item unless its expiration equals the 0DTE target, its strike
is present, its type is call or put, and both gamma and open_interest are
present; otherwise emit the normalized row. -/
def normalizeItem (asOf : String) (it : RawItem) : Option InRow :=
  if it.expiration_date ≠ some asOf then none
  else if it.strike_price = none ∨ (it.contract_type ≠ some "call" ∧ it.contract_type ≠ some "put") then none
  else if it.gamma = none ∨ it.open_interest = none then none
  else some { strike := it.strike_price.getD 0,
              type := it.contract_type.getD "",
              gamma := it.gamma.getD 0,
              open_interest := it.open_interest.getD 0 }

/-- One page of the paginated snapshot feed: its result entries and whether
the response carried a next_url pointer. -/
structure Page where
  results : List RawItem
  has_next : Bool
deriving DecidableEq, Repr

/-- Outcome of one page fetch through _polygon_get, lines 76-81 of app.py:
401/403 raises PermissionError, any other failure raises a request error. -/
inductive FetchError where
  | permission (code : ℕ) (msg : String)
  | request (msg : String)
deriving DecidableEq, Repr

/-- The while-loop of fetch_chain_0dte_snapshot, lines 119-161 of app.py.
The loop guard is url-and-page-budget; each iteration fetches page i
(propagating a raised fetch error), appends that page's normalized rows, and
continues to page i+1 only when the page carried a next_url. -/
def fetchWalk (feed : ℕ → Except FetchError Page) (asOf : String) :
    ℕ → ℕ → List InRow → Except FetchError (List InRow)
  | _, 0, acc => Except.ok acc
  | i, fuel + 1, acc =>
    match feed i with
    | Except.error e => Except.error e
    | Except.ok page =>
      let acc2 := acc ++ page.results.filterMap (normalizeItem asOf)
      if page.has_next then fetchWalk feed asOf (i + 1) fuel acc2 else Except.ok acc2

/-- app.py fetch_chain_0dte_snapshot, lines 108-162; max_pages is the page
budget of the while-loop guard, 10 at the call sites that use the default. -/
def fetch_chain_0dte_snapshot (feed : ℕ → Except FetchError Page) (asOf : String)
    (max_pages : ℕ) : Except FetchError (List InRow) :=
  fetchWalk feed asOf 0 max_pages []

end app

namespace gex

/-- gex.py line 6. -/
def CONTRACT_MULTIPLIER : ℚ := 100

/-- Row of the work table of gex.py compute_abs_gex_by_strike at line 40,
after the conditional gamma-resolution step: strike and type are present;
open_interest and gamma are optional (NaN after to_numeric coercion is
modelled as none; to_numeric(open_interest).fillna(0) is the getD 0 below). -/
structure GRow where
  strike : ℚ
  type : String
  open_interest : Option ℚ
  gamma : Option ℚ
deriving DecidableEq, Repr

/-- Line 44 of gex.py: gex = gamma * open_interest * CONTRACT_MULTIPLIER.
A NaN gamma makes the product NaN (none); missing open interest was already
filled with 0. -/
def gexOf (r : GRow) : Option ℚ :=
  r.gamma.map (fun g => g * r.open_interest.getD 0 * CONTRACT_MULTIPLIER)

/-- The call-side sub-table, line 46 of gex.py. -/
def callsOf (df : List GRow) : List GRow := df.filter (fun r => r.type == "call")

/-- The put-side sub-table, line 47 of gex.py. -/
def putsOf (df : List GRow) : List GRow := df.filter (fun r => r.type == "put")

/-- groupby("strike")["gex"].sum() at one key: the pandas sum skips NaN
values and an all-NaN group sums to 0, so the sum runs over the rows whose
gex is a number. -/
def groupSum (rows : List GRow) (s : ℚ) : ℚ :=
  ((rows.filter (fun r => r.strike == s)).filterMap gexOf).sum

/-- Group keys of the outer concat of lines 46-49 of gex.py. -/
def outStrikes (df : List GRow) : List ℚ :=
  ((callsOf df).map GRow.strike ++ (putsOf df).map GRow.strike).dedup

/-- Output row of gex.py compute_abs_gex_by_strike. -/
structure GProfileRow where
  strike : ℚ
  CallGEX : ℚ
  PutGEX : ℚ
  AbsGEX : ℚ
  NetGEX : ℚ
deriving DecidableEq, Repr

/-- gex.py compute_abs_gex_by_strike, aggregation stage (lines 40-54): group
each side by strike, outer-join with fillna(0), AbsGEX = |CallGEX| + |PutGEX|,
NetGEX = CallGEX - PutGEX, sort ascending by strike. -/
def compute_abs_gex_by_strike (df : List GRow) : List GProfileRow :=
  ((outStrikes df).insertionSort (· ≤ ·)).map (fun s =>
    let c := groupSum (callsOf df) s
    let p := groupSum (putsOf df) s
    { strike := s, CallGEX := c, PutGEX := p, AbsGEX := |c| + |p|, NetGEX := c - p })

/-- The standard normal probability density, scipy norm.pdf. -/
noncomputable def normPdf (x : ℝ) : ℝ :=
  Real.exp (-(x ^ 2) / 2) / Real.sqrt (2 * Real.pi)

/-- gex.py bs_gamma, lines 8-17: the degenerate-input guard returns NaN
(modelled none) before the formula; otherwise the Black-Scholes gamma
phi(d1) / (S sigma sqrt T). -/
noncomputable def bs_gamma (S K T r sigma : ℝ) : Option ℝ :=
  if S ≤ 0 ∨ K ≤ 0 ∨ T ≤ 0 ∨ sigma ≤ 0 then none
  else
    some (normPdf ((Real.log (S / K) + (r + (1 / 2) * sigma ^ 2) * T) / (sigma * Real.sqrt T)) /
      (S * sigma * Real.sqrt T))

/-- Input row of gex.py compute_abs_gex_by_strike before gamma resolution;
real-valued because the estimator may be invoked on it. A missing iv (the
row.get("iv", nan) default) is none. -/
structure RawGRow where
  strike : ℝ
  type : String
  open_interest : Option ℝ
  iv : Option ℝ
  gamma : Option ℝ
  tte_years : ℝ

/-- The lambda of lines 35-38 of gex.py: bs_gamma(spot, strike, tte_years, r, iv);
with iv missing the float result is NaN, modelled none. -/
noncomputable def estimatedGamma (spot r : ℝ) (row : RawGRow) : Option ℝ :=
  match row.iv with
  | none => none
  | some sigma => bs_gamma spot row.strike row.tte_years r sigma

/-- Lines 33-38 of gex.py: the gamma column is recomputed from iv for EVERY
row when the column is absent or every entry is NaN; otherwise the supplied
column is used unchanged for every row. The i-th entry of the result is the
gamma value used in row i's exposure contribution. -/
noncomputable def gammaUsed (spot r : ℝ) (rows : List RawGRow) : List (Option ℝ) :=
  if rows.all (fun row => row.gamma.isNone) then
    rows.map (estimatedGamma spot r)
  else
    rows.map RawGRow.gamma

end gex

namespace polygon_data

/-- Raw contract-reference entry of the contracts listing used by
get_chain_0dte in polygon_data.py. -/
structure ContractRef where
  strike_price : Option ℚ
  contract_type : Option String
  ticker : Option String
deriving DecidableEq, Repr

/-- Per-entry parse of lines 74-80 of polygon_data.py: skip entries missing a
strike, with a type other than call/put, or without a (nonempty) ticker. -/
def parseContract (c : ContractRef) : Option (ℚ × String × String) :=
  match c.strike_price, c.ticker with
  | some s, some t =>
    if (c.contract_type = some "call" ∨ c.contract_type = some "put") ∧ t ≠ "" then
      some (s, c.contract_type.getD "", t)
    else none
  | _, _ => none

/-- Lines 73-84 of polygon_data.py get_chain_0dte: parse the contract listing
and raise RuntimeError when the parsed frame is empty. -/
def get_chain_contracts (results : List ContractRef) :
    Except String (List (ℚ × String × String)) :=
  let rows := results.filterMap parseContract
  if rows.isEmpty then
    Except.error "No option contracts returned for that expiration."
  else Except.ok rows

end polygon_data

/-- Scenario-A style input with a third, negatively-signed put row. -/
def rowsA : List app.InRow :=
  [{ strike := 470, type := "call", gamma := 12, open_interest := 100 },
   { strike := 470, type := "put", gamma := 8, open_interest := 100 },
   { strike := 471, type := "put", gamma := -3, open_interest := 10 }]

/-- A small aggregated profile used to exercise the top-N selector. -/
def profB : List app.ProfileRow :=
  [{ strike := 470, CallGEX := 1200, PutGEX := 800, AbsGEX := 2000 },
   { strike := 471, CallGEX := 0, PutGEX := -30, AbsGEX := 30 },
   { strike := 469, CallGEX := 5, PutGEX := 5, AbsGEX := 10 }]

/-- Pre-resolution gex.py row carrying a feed-supplied gamma. -/
noncomputable def mixRowA : gex.RawGRow :=
  { strike := 100, type := "call", open_interest := some 50, iv := some (22 / 100),
    gamma := some (1 / 10), tte_years := 1 / 365 }

/-- Pre-resolution gex.py row with gamma absent but implied volatility present. -/
noncomputable def mixRowB : gex.RawGRow :=
  { strike := 100, type := "put", open_interest := some 30, iv := some (22 / 100),
    gamma := none, tte_years := 1 / 365 }

/-- A mixed table: one row has supplied gamma, the other does not. -/
noncomputable def gexMixRows : List gex.RawGRow := [mixRowA, mixRowB]

/-- A gex.py work-table row whose gamma is missing. -/
def badGRow : gex.GRow :=
  { strike := 100, type := "call", open_interest := some 5, gamma := none }

/-- A raw snapshot item that normalizes successfully for target date 2025-06-20. -/
def itemGood : app.RawItem :=
  { expiration_date := some "2025-06-20", strike_price := some 500,
    contract_type := some "call", gamma := some (1 / 100), open_interest := some 20 }

/-- A raw snapshot item identical in kind but missing open_interest. -/
def itemNoOI : app.RawItem :=
  { expiration_date := some "2025-06-20", strike_price := some 505,
    contract_type := some "put", gamma := some (2 / 100), open_interest := none }

/-- A feed whose every page holds one good entry and always advertises a next
page: an unbounded pagination chain. -/
def feedEndless : ℕ → Except app.FetchError app.Page :=
  fun _ => Except.ok { results := [itemGood], has_next := true }

/-- A two-page feed: page 0 links to page 1, page 1 ends the chain. -/
def feedTwoPages : ℕ → Except app.FetchError app.Page :=
  fun i =>
    if i = 0 then Except.ok { results := [itemGood], has_next := true }
    else if i = 1 then Except.ok { results := [itemNoOI, itemGood], has_next := false }
    else Except.ok { results := [], has_next := false }

/-- A feed that succeeds on page 0 (three entries, next present) and fails
with an authorization error on page 1. -/
def feedAuthFail : ℕ → Except app.FetchError app.Page :=
  fun i =>
    if i = 0 then Except.ok { results := [itemGood, itemGood, itemGood], has_next := true }
    else Except.error (app.FetchError.permission 403 "plan does not permit this endpoint")

/-- A feed whose pages are all well-formed but carry no usable entries. -/
def feedEmptyOk : ℕ → Except app.FetchError app.Page :=
  fun _ => Except.ok { results := [], has_next := false }

/-- Single-page feed containing one good entry and one entry missing
open_interest. -/
def feedWithNoOI : ℕ → Except app.FetchError app.Page :=
  fun i =>
    if i = 0 then Except.ok { results := [itemGood, itemNoOI], has_next := false }
    else Except.ok { results := [], has_next := false }

/-- Single-page feed containing only the good entry. -/
def feedWithoutNoOI : ℕ → Except app.FetchError app.Page :=
  fun i =>
    if i = 0 then Except.ok { results := [itemGood], has_next := false }
    else Except.ok { results := [], has_next := false }

/-- The normalized rows contributed by page i of a feed (empty for a failed
page); used only to state pagination-completeness. -/
def pageRows (feed : ℕ → Except app.FetchError app.Page) (asOf : String) (i : ℕ) :
    List app.InRow :=
  match feed i with
  | Except.ok p => p.results.filterMap (app.normalizeItem asOf)
  | Except.error _ => []

/-- Injection of an app.py row (all fields present and numeric) into the
gex.py work-table row shape. -/
def toGRow (r : app.InRow) : gex.GRow :=
  { strike := r.strike, type := r.type,
    open_interest := some r.open_interest, gamma := some r.gamma }

section Lemmas

/-- A row whose gamma is missing contributes nothing to a gex.py group sum:
its gex value is NaN and the skipna summation passes over it. -/
theorem groupSum_cons_none (row : gex.GRow) (hg : row.gamma = none)
    (rows : List gex.GRow) (s : ℚ) :
    gex.groupSum (row :: rows) s = gex.groupSum rows s := by
  unfold gex.groupSum
  rw [List.filter_cons]
  split
  · rw [List.filterMap_cons_none]
    simp [gex.gexOf, hg]
  · rfl

/-- A raw snapshot item without open_interest is skipped by the
fetch_chain_0dte_snapshot item loop. -/
theorem normalizeItem_none_oi (asOf : String) (it : app.RawItem)
    (hoi : it.open_interest = none) : app.normalizeItem asOf it = none := by
  unfold app.normalizeItem
  split
  · rfl
  · split
    · rfl
    · rw [if_pos (Or.inr hoi)]

end Lemmas

/-- Evaluation of the app.py aggregator on the Scenario-A style input. -/
theorem compute_rowsA_eval : app.compute_abs_gex_by_strike rowsA =
    [{ strike := 470, CallGEX := 1200, PutGEX := 800, AbsGEX := 2000 },
     { strike := 471, CallGEX := 0, PutGEX := -30, AbsGEX := 30 }] := by
  simp [app.compute_abs_gex_by_strike, rowsA, app.outStrikes, app.callsOf, app.putsOf,
    app.groupSum, app.gexOf, List.filter_cons, beq_iff_eq]
  norm_num [app.gexOf, List.insertionSort, List.orderedInsert,
    List.dedup_cons_of_mem, List.dedup_cons_of_not_mem]

/-- C1: in every output row of compute_abs_gex_by_strike, of either variant,
AbsGEX equals the absolute call exposure plus the absolute put exposure; the
input (and so the sign with which put contributions were stored) is
universally quantified, so the identity is independent of the sign
convention. -/
theorem abs_gex_identity :
    (∀ (df : List app.InRow), ∀ row ∈ app.compute_abs_gex_by_strike df,
        row.AbsGEX = |row.CallGEX| + |row.PutGEX|) ∧
    (∀ (df : List gex.GRow), ∀ row ∈ gex.compute_abs_gex_by_strike df,
        row.AbsGEX = |row.CallGEX| + |row.PutGEX|) := by
  constructor
  · intro df row hrow
    unfold app.compute_abs_gex_by_strike at hrow
    split at hrow
    · simp at hrow
    · simp only [List.mem_map] at hrow
      obtain ⟨s, _, rfl⟩ := hrow
      rfl
  · intro df row hrow
    simp only [gex.compute_abs_gex_by_strike, List.mem_map] at hrow
    obtain ⟨s, _, rfl⟩ := hrow
    rfl

/-- Witness for C1 at a concrete profile row whose put side is negative. -/
theorem abs_gex_identity_witness :
    ({ strike := 471, CallGEX := 0, PutGEX := -30, AbsGEX := 30 } : app.ProfileRow) ∈
      app.compute_abs_gex_by_strike rowsA ∧
    ({ strike := 471, CallGEX := 0, PutGEX := -30, AbsGEX := 30 } : app.ProfileRow).AbsGEX =
      |({ strike := 471, CallGEX := 0, PutGEX := -30, AbsGEX := 30 } : app.ProfileRow).CallGEX| +
      |({ strike := 471, CallGEX := 0, PutGEX := -30, AbsGEX := 30 } : app.ProfileRow).PutGEX| := by
  have hmem : ({ strike := 471, CallGEX := 0, PutGEX := -30, AbsGEX := 30 } : app.ProfileRow) ∈
      app.compute_abs_gex_by_strike rowsA := by
    rw [compute_rowsA_eval]
    simp
  exact ⟨hmem, abs_gex_identity.1 rowsA _ hmem⟩

/-- C8: the degenerate-input guard of bs_gamma fires before the formula: for
any input with a non-positive spot, strike, expiry or volatility the result
is NaN (none), the singular branch of the formula being unreachable; and a
work-table row with no usable gamma contributes nothing to either side's
group sum at any strike. -/
theorem bs_gamma_degenerate (S K T r sigma : ℝ)
    (h : S ≤ 0 ∨ K ≤ 0 ∨ T ≤ 0 ∨ sigma ≤ 0) :
    gex.bs_gamma S K T r sigma = none ∧
    ∀ (row : gex.GRow), row.gamma = none → ∀ (df : List gex.GRow) (s : ℚ),
      gex.groupSum (gex.callsOf (row :: df)) s = gex.groupSum (gex.callsOf df) s ∧
      gex.groupSum (gex.putsOf (row :: df)) s = gex.groupSum (gex.putsOf df) s := by
  constructor
  · unfold gex.bs_gamma
    rw [if_pos h]
  · intro row hg df s
    constructor
    · unfold gex.callsOf
      rw [List.filter_cons]
      split
      · exact groupSum_cons_none row hg _ s
      · rfl
    · unfold gex.putsOf
      rw [List.filter_cons]
      split
      · exact groupSum_cons_none row hg _ s
      · rfl

/-- C2: the top-N selection of lines 292-293 of app.py has exactly
min(N, number of profile rows) rows, is ordered ascending by strike, and the
selected rows dominate the unselected remainder in AbsGEX. -/
theorem top_select_spec (df : List app.ProfileRow) (n : ℕ) :
    (app.topSelect df n).length = min n df.length ∧
    (app.topSelect df n).Sorted app.strikeLE ∧
    ∃ rest, (app.topSelect df n ++ rest).Perm df ∧
      ∀ x ∈ app.topSelect df n, ∀ y ∈ rest, y.AbsGEX ≤ x.AbsGEX := by
  refine ⟨?_, List.sorted_insertionSort app.strikeLE _, ?_⟩
  · unfold app.topSelect
    rw [List.length_insertionSort, List.length_take, List.length_insertionSort]
  · refine ⟨(df.insertionSort app.absDescLE).drop n, ?_, ?_⟩
    · have hp1 : (app.topSelect df n).Perm ((df.insertionSort app.absDescLE).take n) :=
        List.perm_insertionSort app.strikeLE _
      have hp2 := hp1.append_right ((df.insertionSort app.absDescLE).drop n)
      rw [List.take_append_drop] at hp2
      exact hp2.trans (List.perm_insertionSort app.absDescLE df)
    · intro x hx y hy
      have hsorted : List.Pairwise app.absDescLE (df.insertionSort app.absDescLE) :=
        List.sorted_insertionSort app.absDescLE df
      rw [← List.take_append_drop n (df.insertionSort app.absDescLE)] at hsorted
      have h3 := (List.pairwise_append.mp hsorted).2.2
      have hx2 : x ∈ (df.insertionSort app.absDescLE).take n :=
        (List.perm_insertionSort app.strikeLE _).mem_iff.mp hx
      exact h3 x hx2 y hy

/-- Witness for C2 on a concrete three-row profile with N = 2. -/
theorem top_select_spec_witness :
    (app.topSelect profB 2).length = min 2 profB.length ∧
    (app.topSelect profB 2).Sorted app.strikeLE ∧
    ∃ rest, (app.topSelect profB 2 ++ rest).Perm profB ∧
      ∀ x ∈ app.topSelect profB 2, ∀ y ∈ rest, y.AbsGEX ≤ x.AbsGEX :=
  top_select_spec profB 2

/-- Helper: the strike column of a nonempty aggregation is the sorted list of
the outer-union group keys. -/
theorem strikes_of_compute (df : List app.InRow) (h : df.isEmpty = false) :
    (app.compute_abs_gex_by_strike df).map app.ProfileRow.strike =
      (app.outStrikes df).insertionSort (· ≤ ·) := by
  unfold app.compute_abs_gex_by_strike
  rw [if_neg (by simp [h]), List.map_map]
  exact List.map_id _

/-- C3: on normalized input (every row a call or a put), the output profile
carries each strike exactly once (its strike column has no duplicates), its
strike set equals the strike set of the input rows, and a side with no
contracts at a strike gets the substituted sum 0. -/
theorem strike_coverage (df : List app.InRow)
    (htype : ∀ r ∈ df, r.type = "call" ∨ r.type = "put") :
    ((app.compute_abs_gex_by_strike df).map app.ProfileRow.strike).Nodup ∧
    (∀ s : ℚ, s ∈ (app.compute_abs_gex_by_strike df).map app.ProfileRow.strike ↔
        s ∈ df.map app.InRow.strike) ∧
    ∀ row ∈ app.compute_abs_gex_by_strike df,
      ((∀ r ∈ app.callsOf df, r.strike ≠ row.strike) → row.CallGEX = 0) ∧
      ((∀ r ∈ app.putsOf df, r.strike ≠ row.strike) → row.PutGEX = 0) := by
  cases hdf : df with
  | nil => simp [app.compute_abs_gex_by_strike]
  | cons a l =>
    rw [← hdf]
    have hne : df.isEmpty = false := by rw [hdf]; rfl
    have hstr := strikes_of_compute df hne
    refine ⟨?_, ?_, ?_⟩
    · rw [hstr]
      exact ((List.perm_insertionSort _ _).nodup_iff).mpr (List.nodup_dedup _)
    · intro s
      rw [hstr, (List.perm_insertionSort _ _).mem_iff]
      unfold app.outStrikes
      rw [List.mem_dedup, List.mem_append]
      constructor
      · rintro (hs | hs) <;>
          (rw [List.mem_map] at hs ⊢
           obtain ⟨r, hr, rfl⟩ := hs
           exact ⟨r, List.mem_of_mem_filter hr, rfl⟩)
      · intro hs
        rw [List.mem_map] at hs
        obtain ⟨r, hr, rfl⟩ := hs
        rcases htype r hr with ht | ht
        · refine Or.inl ?_
          rw [List.mem_map]
          exact ⟨r, List.mem_filter.mpr ⟨hr, by simp [ht]⟩, rfl⟩
        · refine Or.inr ?_
          rw [List.mem_map]
          exact ⟨r, List.mem_filter.mpr ⟨hr, by simp [ht]⟩, rfl⟩
    · intro row hrow
      unfold app.compute_abs_gex_by_strike at hrow
      rw [if_neg (by simp [hne])] at hrow
      simp only [List.mem_map] at hrow
      obtain ⟨s, _, rfl⟩ := hrow
      constructor
      · intro hnone
        show app.groupSum (app.callsOf df) s = 0
        unfold app.groupSum
        have hfil : (app.callsOf df).filter (fun r => r.strike == s) = [] := by
          rw [List.filter_eq_nil_iff]
          intro r hr
          simpa using hnone r hr
        rw [hfil]
        rfl
      · intro hnone
        show app.groupSum (app.putsOf df) s = 0
        unfold app.groupSum
        have hfil : (app.putsOf df).filter (fun r => r.strike == s) = [] := by
          rw [List.filter_eq_nil_iff]
          intro r hr
          simpa using hnone r hr
        rw [hfil]
        rfl

/-- Witness for C3 on the Scenario-A style input. -/
theorem strike_coverage_witness :
    ((app.compute_abs_gex_by_strike rowsA).map app.ProfileRow.strike).Nodup ∧
    (∀ s : ℚ, s ∈ (app.compute_abs_gex_by_strike rowsA).map app.ProfileRow.strike ↔
        s ∈ rowsA.map app.InRow.strike) ∧
    ∀ row ∈ app.compute_abs_gex_by_strike rowsA,
      ((∀ r ∈ app.callsOf rowsA, r.strike ≠ row.strike) → row.CallGEX = 0) ∧
      ((∀ r ∈ app.putsOf rowsA, r.strike ≠ row.strike) → row.PutGEX = 0) :=
  strike_coverage rowsA (by decide)

/-- C4 counterexample: in a mixed table, the gamma used for the row whose
supplied gamma is absent is NaN (none), not the Black-Scholes estimate, even
though the estimate at that row's inputs is an actual number: the resolution
of lines 33-38 of gex.py is per-column, not per-row. -/
theorem gamma_resolution_counterexample :
    (gex.gammaUsed 100 (5 / 100) gexMixRows)[1]? = some none ∧
    (gex.bs_gamma 100 100 (1 / 365) (5 / 100) (22 / 100)).isSome = true := by
  constructor
  · unfold gex.gammaUsed
    rw [if_neg (by simp [gexMixRows, mixRowA])]
    simp [gexMixRows, mixRowB]
  · unfold gex.bs_gamma
    rw [if_neg (by push_neg; norm_num)]
    rfl

/-- C4 as amended: a feed-supplied gamma is never overridden, but the
estimator is invoked only when gamma is absent from every row of the table
(column missing or all-NaN); in that case each row's gamma is the
Black-Scholes value computed from its implied volatility, while in a mixed
table the rows without supplied gamma keep no usable gamma. -/
theorem gamma_resolution (spot r : ℝ) (rows : List gex.RawGRow) :
    ((∀ row ∈ rows, row.gamma = none) →
      gex.gammaUsed spot r rows = rows.map (gex.estimatedGamma spot r)) ∧
    ((∃ row ∈ rows, row.gamma ≠ none) →
      gex.gammaUsed spot r rows = rows.map gex.RawGRow.gamma) := by
  constructor
  · intro h
    unfold gex.gammaUsed
    rw [if_pos]
    rw [List.all_eq_true]
    intro row hrow
    simp [h row hrow]
  · intro h
    obtain ⟨row, hrow, hne⟩ := h
    unfold gex.gammaUsed
    rw [if_neg]
    intro hall
    exact hne (Option.isNone_iff_eq_none.mp (List.all_eq_true.mp hall row hrow))

/-- Witness for C4 as amended: with one supplied gamma present the whole
column is used unchanged, so the gamma-less row keeps none. -/
theorem gamma_resolution_witness :
    gex.gammaUsed 100 (5 / 100) gexMixRows = List.map gex.RawGRow.gamma gexMixRows :=
  (gamma_resolution 100 (5 / 100) gexMixRows).2
    ⟨mixRowA, List.mem_cons_self mixRowA [mixRowB], by simp [mixRowA]⟩

/-- Helper: a walk over pages that are all well-formed but yield no usable
entries accumulates nothing and succeeds. -/
theorem fetchWalk_all_empty (feed : ℕ → Except app.FetchError app.Page) (asOf : String)
    (hfeed : ∀ i, ∃ p, feed i = Except.ok p ∧
      p.results.filterMap (app.normalizeItem asOf) = []) :
    ∀ (fuel i : ℕ), app.fetchWalk feed asOf i fuel [] = Except.ok [] := by
  intro fuel
  induction fuel with
  | zero => intro i; rfl
  | succ m ih =>
    intro i
    obtain ⟨p, hp, hrows⟩ := hfeed i
    simp only [app.fetchWalk]
    rw [hp]
    cases hn : p.has_next with
    | false => simp [hn, hrows]
    | true => simp [hn, hrows, ih (i + 1)]

/-- C5 counterexample: the get_chain_0dte variant raises RuntimeError on an
empty contract list instead of returning an empty result. -/
theorem empty_chain_raises :
    polygon_data.get_chain_contracts [] =
      Except.error "No option contracts returned for that expiration." := rfl

/-- C5 as amended: in the app.py pipeline an input yielding zero normalized
rows is not an error: the fetch succeeds with an empty row set, the
aggregation of an empty row set is the empty profile, and every top-N
selection from it is empty. (The polygon_data.get_chain_0dte variant instead
raises on an empty contract list.) -/
theorem empty_input_not_error (feed : ℕ → Except app.FetchError app.Page)
    (asOf : String) (n : ℕ)
    (hfeed : ∀ i, ∃ p, feed i = Except.ok p ∧
      p.results.filterMap (app.normalizeItem asOf) = []) :
    app.fetch_chain_0dte_snapshot feed asOf n = Except.ok [] ∧
    app.compute_abs_gex_by_strike [] = [] ∧
    ∀ m, app.topSelect (app.compute_abs_gex_by_strike []) m = [] := by
  refine ⟨fetchWalk_all_empty feed asOf hfeed n 0, rfl, ?_⟩
  intro m
  show app.topSelect [] m = []
  unfold app.topSelect
  simp [List.take_nil]

/-- Witness for C5 as amended, on a feed of well-formed empty pages. -/
theorem empty_input_not_error_witness :
    app.fetch_chain_0dte_snapshot feedEmptyOk "2025-06-20" 10 = Except.ok [] ∧
    app.compute_abs_gex_by_strike [] = [] ∧
    ∀ m, app.topSelect (app.compute_abs_gex_by_strike []) m = [] :=
  empty_input_not_error feedEmptyOk "2025-06-20" 10
    (fun _ => ⟨{ results := [], has_next := false }, rfl, rfl⟩)

/-- Helper: if the first failing page is reached within the page budget, the
whole walk returns that failure, carrying no rows. -/
theorem fetchWalk_error (feed : ℕ → Except app.FetchError app.Page) (asOf : String)
    (e : app.FetchError) :
    ∀ (d i fuel : ℕ) (acc : List app.InRow), d < fuel →
      (∀ j, j < d → ∃ p, feed (i + j) = Except.ok p ∧ p.has_next = true) →
      feed (i + d) = Except.error e →
      app.fetchWalk feed asOf i fuel acc = Except.error e := by
  intro d
  induction d with
  | zero =>
    intro i fuel acc hfuel _ herr
    obtain ⟨f, rfl⟩ : ∃ f, fuel = f + 1 := ⟨fuel - 1, by omega⟩
    rw [Nat.add_zero] at herr
    simp only [app.fetchWalk]
    rw [herr]
  | succ d ih =>
    intro i fuel acc hfuel hok herr
    obtain ⟨f, rfl⟩ : ∃ f, fuel = f + 1 := ⟨fuel - 1, by omega⟩
    obtain ⟨p, hp, hn⟩ := hok 0 (Nat.succ_pos d)
    rw [Nat.add_zero] at hp
    simp only [app.fetchWalk]
    rw [hp]
    simp only [hn, if_true]
    refine ih (i + 1) f _ (by omega) (fun j hj => ?_) ?_
    · have h2 := hok (j + 1) (by omega)
      rwa [show i + (j + 1) = i + 1 + j by omega] at h2
    · rwa [show i + (d + 1) = i + 1 + d by omega] at herr

/-- Helper: when the chain of next-pointers ends at page i+d within the page
budget, the walk returns exactly the accumulated concatenation of the
normalized rows of pages i..i+d. -/
theorem fetchWalk_next (feed : ℕ → Except app.FetchError app.Page) (asOf : String) :
    ∀ (d i fuel : ℕ) (acc : List app.InRow), d < fuel →
      (∀ j, j < d → ∃ p, feed (i + j) = Except.ok p ∧ p.has_next = true) →
      (∃ p, feed (i + d) = Except.ok p ∧ p.has_next = false) →
      app.fetchWalk feed asOf i fuel acc =
        Except.ok (acc ++ ((List.range' i (d + 1)).map (pageRows feed asOf)).flatten) := by
  intro d
  induction d with
  | zero =>
    intro i fuel acc hfuel _ hlast
    obtain ⟨f, rfl⟩ : ∃ f, fuel = f + 1 := ⟨fuel - 1, by omega⟩
    obtain ⟨p, hp, hn⟩ := hlast
    rw [Nat.add_zero] at hp
    have hpr : pageRows feed asOf i = p.results.filterMap (app.normalizeItem asOf) := by
      unfold pageRows
      rw [hp]
    simp only [app.fetchWalk]
    rw [hp]
    simp [hn, hpr]
  | succ d ih =>
    intro i fuel acc hfuel hok hlast
    obtain ⟨f, rfl⟩ : ∃ f, fuel = f + 1 := ⟨fuel - 1, by omega⟩
    obtain ⟨p, hp, hn⟩ := hok 0 (Nat.succ_pos d)
    rw [Nat.add_zero] at hp
    have hpr : pageRows feed asOf i = p.results.filterMap (app.normalizeItem asOf) := by
      unfold pageRows
      rw [hp]
    simp only [app.fetchWalk]
    rw [hp]
    simp only [hn, if_true]
    rw [ih (i + 1) f _ (by omega)
      (fun j hj => by
        have h2 := hok (j + 1) (by omega)
        rwa [show i + (j + 1) = i + 1 + j by omega] at h2)
      (by
        obtain ⟨q, hq, hqn⟩ := hlast
        refine ⟨q, ?_, hqn⟩
        rwa [show i + (d + 1) = i + 1 + d by omega] at hq)]
    rw [List.range'_succ i (d + 1) 1, List.map_cons, List.flatten_cons, hpr,
      ← List.append_assoc]

/-- C6 counterexample: against a feed whose every page advertises a next
pointer, the walk still ends after max_pages = 10 pages; page index 9, the
last one fetched, carried a next pointer, and page 10 held a further entry
that is absent from the output (only 10 copies of the normalized row are
returned). -/
theorem pagination_cap_counterexample :
    app.fetch_chain_0dte_snapshot feedEndless "2025-06-20" 10 =
      Except.ok (List.replicate 10
        { strike := 500, type := "call", gamma := 1 / 100, open_interest := 20 }) ∧
    feedEndless 9 = Except.ok { results := [itemGood], has_next := true } ∧
    feedEndless 10 = Except.ok { results := [itemGood], has_next := true } :=
  ⟨rfl, rfl, rfl⟩

/-- C6 as amended: the walk concatenates the entries of successive pages and
ends either when a page lacks a next pointer (a normal outcome, not an
error) or when the max_pages budget is exhausted; whenever the chain of next
pointers ends at page k within the budget, all pages 0..k are concatenated
to completion. -/
theorem pagination_follows_next (feed : ℕ → Except app.FetchError app.Page)
    (asOf : String) (n k : ℕ) (hk : k < n)
    (hok : ∀ i, i < k → ∃ p, feed i = Except.ok p ∧ p.has_next = true)
    (hlast : ∃ p, feed k = Except.ok p ∧ p.has_next = false) :
    app.fetch_chain_0dte_snapshot feed asOf n =
      Except.ok (((List.range (k + 1)).map (pageRows feed asOf)).flatten) := by
  unfold app.fetch_chain_0dte_snapshot
  rw [List.range_eq_range']
  have h := fetchWalk_next feed asOf k 0 n [] hk
    (fun j hj => by simpa using hok j hj) (by simpa using hlast)
  simpa using h

/-- Witness for C6 as amended, on a two-page feed ending at page 1. -/
theorem pagination_follows_next_witness :
    app.fetch_chain_0dte_snapshot feedTwoPages "2025-06-20" 10 =
      Except.ok (((List.range (1 + 1)).map (pageRows feedTwoPages "2025-06-20")).flatten) :=
  pagination_follows_next feedTwoPages "2025-06-20" 10 1 (by omega)
    (fun i hi => by
      have h0 : i = 0 := by omega
      subst h0
      exact ⟨_, rfl, rfl⟩)
    ⟨_, rfl, rfl⟩

/-- C7: a fetch failure on any page reached during the walk (here page k,
after k pages that each succeeded and pointed onward) makes the whole
normalization fail with that error; the failure result carries no rows, so
no profile built from the pages already fetched is returned. -/
theorem fetch_error_propagates (feed : ℕ → Except app.FetchError app.Page)
    (asOf : String) (n k : ℕ) (e : app.FetchError) (hk : k < n)
    (hok : ∀ i, i < k → ∃ p, feed i = Except.ok p ∧ p.has_next = true)
    (herr : feed k = Except.error e) :
    app.fetch_chain_0dte_snapshot feed asOf n = Except.error e := by
  unfold app.fetch_chain_0dte_snapshot
  exact fetchWalk_error feed asOf e k 0 n [] hk
    (fun j hj => by simpa using hok j hj) (by simpa using herr)

/-- Witness for C7: Scenario E, page 0 succeeds with three entries and a next
pointer, page 1 fails with an authorization error. -/
theorem fetch_error_propagates_witness :
    app.fetch_chain_0dte_snapshot feedAuthFail "2025-06-20" 10 =
      Except.error (app.FetchError.permission 403 "plan does not permit this endpoint") :=
  fetch_error_propagates feedAuthFail "2025-06-20" 10 1 _ (by omega)
    (fun i hi => by
      have h0 : i = 0 := by omega
      subst h0
      exact ⟨_, rfl, rfl⟩)
    rfl

/-- C9 counterexample: the pipeline output is identical whether or not a
record missing open_interest was present in the feed, so no count of dropped
records is retained anywhere in the pipeline result. -/
theorem missing_oi_untracked :
    app.fetch_chain_0dte_snapshot feedWithNoOI "2025-06-20" 10 =
      app.fetch_chain_0dte_snapshot feedWithoutNoOI "2025-06-20" 10 ∧
    itemNoOI.open_interest = none :=
  ⟨rfl, rfl⟩

/-- C9 as amended: a contract record missing open_interest is dropped before
aggregation by the app.py item loop (the normalized output is unchanged by
removing all such records), and in the gex.py variant its exposure
contribution is NaN or zero, contributing nothing to any group sum; but the
records are silently discarded, no diagnostic count being kept. -/
theorem missing_oi_dropped (asOf : String) (it : app.RawItem)
    (hoi : it.open_interest = none) :
    app.normalizeItem asOf it = none ∧
    (∀ items : List app.RawItem,
      items.filterMap (app.normalizeItem asOf) =
        (items.filter (fun j => j.open_interest.isSome)).filterMap (app.normalizeItem asOf)) ∧
    ∀ r : gex.GRow, r.open_interest = none →
      gex.gexOf r = none ∨ gex.gexOf r = some 0 := by
  refine ⟨normalizeItem_none_oi asOf it hoi, ?_, ?_⟩
  · intro items
    induction items with
    | nil => rfl
    | cons j tl ih =>
      cases hjo : j.open_interest with
      | none =>
        rw [List.filterMap_cons_none (normalizeItem_none_oi asOf j hjo)]
        rw [List.filter_cons]
        simp [hjo, ih]
      | some v =>
        rw [List.filter_cons]
        simp only [hjo, Option.isSome_some, if_true]
        rw [List.filterMap_cons, List.filterMap_cons, ih]
  · intro r hr
    unfold gex.gexOf
    cases hg : r.gamma with
    | none => exact Or.inl rfl
    | some g =>
      refine Or.inr ?_
      rw [hr]
      simp

/-- Witness for C9 as amended at a concrete record missing open_interest. -/
theorem missing_oi_dropped_witness :
    app.normalizeItem "2025-06-20" itemNoOI = none ∧
    (∀ items : List app.RawItem,
      items.filterMap (app.normalizeItem "2025-06-20") =
        (items.filter (fun j => j.open_interest.isSome)).filterMap
          (app.normalizeItem "2025-06-20")) ∧
    ∀ r : gex.GRow, r.open_interest = none →
      gex.gexOf r = none ∨ gex.gexOf r = some 0 :=
  missing_oi_dropped "2025-06-20" itemNoOI rfl

/-- Helper: constant-factor sums. -/
theorem sum_map_mul_const (rows : List app.InRow) (c : ℚ) (f : app.InRow → ℚ) :
    (rows.map (fun r => f r * c)).sum = (rows.map f).sum * c := by
  induction rows with
  | nil => simp
  | cons a l ih => simp [ih, add_mul]

/-- Helper: the gex of an injected row is the app gex scaled by the contract
multiplier. -/
theorem filterMap_gexOf_toGRow (rows : List app.InRow) :
    rows.filterMap (fun r => gex.gexOf (toGRow r)) =
      rows.map (fun r => app.gexOf r * 100) := by
  have h : (fun r : app.InRow => gex.gexOf (toGRow r)) =
      fun r => some (app.gexOf r * 100) := by
    funext r
    simp [gex.gexOf, toGRow, app.gexOf, gex.CONTRACT_MULTIPLIER]
  rw [h]
  exact congrFun (List.filterMap_eq_map _) rows

/-- Helper: the call-side sub-table commutes with the row injection. -/
theorem callsOf_map_toGRow (rows : List app.InRow) :
    gex.callsOf (rows.map toGRow) = (app.callsOf rows).map toGRow := by
  unfold gex.callsOf app.callsOf
  rw [List.filter_map]
  rfl

/-- Helper: the put-side sub-table commutes with the row injection. -/
theorem putsOf_map_toGRow (rows : List app.InRow) :
    gex.putsOf (rows.map toGRow) = (app.putsOf rows).map toGRow := by
  unfold gex.putsOf app.putsOf
  rw [List.filter_map]
  rfl

/-- Helper: the outer-union group keys agree across the two variants. -/
theorem outStrikes_map_toGRow (rows : List app.InRow) :
    gex.outStrikes (rows.map toGRow) = app.outStrikes rows := by
  unfold gex.outStrikes app.outStrikes
  rw [callsOf_map_toGRow, putsOf_map_toGRow, List.map_map, List.map_map]
  rfl

/-- Helper: group sums agree up to the contract multiplier. -/
theorem groupSum_toGRow (rows : List app.InRow) (s : ℚ) :
    gex.groupSum (rows.map toGRow) s = app.groupSum rows s * 100 := by
  unfold gex.groupSum app.groupSum
  rw [List.filter_map, List.filterMap_map]
  show (List.filterMap (fun r => gex.gexOf (toGRow r))
    (rows.filter (fun r => r.strike == s))).sum = _
  rw [filterMap_gexOf_toGRow]
  exact sum_map_mul_const _ 100 app.gexOf

/-- C10: on a table whose every row carries a numeric gamma and a numeric
open_interest (the injected app.py rows), the gex.py aggregation produces,
strike for strike, exactly CONTRACT_MULTIPLIER = 100 times the CallGEX,
PutGEX and AbsGEX of the app.py aggregation. -/
theorem gex_refines_app (rows : List app.InRow) :
    (gex.compute_abs_gex_by_strike (rows.map toGRow)).map
        (fun r => (r.strike, r.CallGEX, r.PutGEX, r.AbsGEX)) =
      (app.compute_abs_gex_by_strike rows).map
        (fun r => (r.strike, 100 * r.CallGEX, 100 * r.PutGEX, 100 * r.AbsGEX)) := by
  cases hrows : rows with
  | nil => rfl
  | cons a l =>
    rw [← hrows]
    have hne : rows.isEmpty = false := by rw [hrows]; rfl
    unfold gex.compute_abs_gex_by_strike app.compute_abs_gex_by_strike
    rw [if_neg (by simp [hne]), outStrikes_map_toGRow, List.map_map, List.map_map]
    congr 1
    funext s
    show (s, gex.groupSum (gex.callsOf (rows.map toGRow)) s,
        gex.groupSum (gex.putsOf (rows.map toGRow)) s,
        |gex.groupSum (gex.callsOf (rows.map toGRow)) s| +
          |gex.groupSum (gex.putsOf (rows.map toGRow)) s|) =
      (s, 100 * app.groupSum (app.callsOf rows) s, 100 * app.groupSum (app.putsOf rows) s,
        100 * (|app.groupSum (app.callsOf rows) s| + |app.groupSum (app.putsOf rows) s|))
    rw [callsOf_map_toGRow, putsOf_map_toGRow, groupSum_toGRow, groupSum_toGRow]
    have habs : ∀ x : ℚ, |x * 100| = |x| * 100 := by
      intro x
      rw [abs_mul]
      norm_num
    simp only [Prod.mk.injEq, habs]
    refine ⟨trivial, by ring, by ring, by ring⟩

/-- Witness for C8 at S = -1 and at a concrete gamma-less row. -/
theorem bs_gamma_degenerate_witness :
    gex.bs_gamma (-1) 1 1 0 1 = none ∧
    gex.groupSum (gex.callsOf [badGRow]) 100 = gex.groupSum (gex.callsOf []) 100 ∧
    gex.groupSum (gex.putsOf [badGRow]) 100 = gex.groupSum (gex.putsOf []) 100 := by
  have h := bs_gamma_degenerate (-1) 1 1 0 1 (Or.inl (by norm_num))
  exact ⟨h.1, (h.2 badGRow rfl [] 100).1, (h.2 badGRow rfl [] 100).2⟩
